import Mathlib

/-!
Verification of the archistripe diagnostic scripts
(`quick_grok_access.py`, `show_all_grok_responses.py`,
`view_grok_responses.py`, `test_grok_access.py`).

The scripts are linear sequences of dictionary lookups and `print`
calls over two JSON entities (Document Summary, AI Response Record).
We embed:
  * a JSON value type with a serializer modelling `json.dump(..., indent=2)`
    and a parser modelling `json.loads` (Python stdlib, not part of the
    repository; modelled faithfully to their observable behaviour with
    two deliberate simplifications noted at the definitions: numbers are
    integers, and non-control non-ASCII characters are written literally
    rather than as ASCII escapes — both re-read to the same value);
  * the record/document structures with optional fields, mirroring the
    scripts' `dict.get(key, default)` access discipline;
  * each script's per-document rendering as a pure function from the
    already-fetched data to the list of printed lines (one list element
    per `print` call; a leading `"\n"` inside an f-string is modelled as
    the line text without the blank line);
  * the interactive selection step of `view_grok_responses.main` and the
    exception-handler structure of each script.
-/

set_option maxRecDepth 4000
set_option linter.unusedVariables false

namespace ArchiStripe

/-! ## Characters and small formatting helpers -/

/-- Opening curly brace character. -/
def lbrace : Char := Char.ofNat 123

/-- Closing curly brace character. -/
def rbrace : Char := Char.ofNat 125

/-- Decimal digit character for `n < 10`. -/
def digitChar (n : Nat) : Char := Char.ofNat (48 + n)

/-- Fuel-indexed digit expansion (structural recursion so that concrete
values compute inside the kernel); `natDigits` below supplies ample fuel. -/
def natDigitsF : Nat → Nat → List Char
  | 0, _ => []
  | f + 1, n =>
      if n < 10 then [digitChar n]
      else natDigitsF f (n / 10) ++ [digitChar (n % 10)]

/-- Decimal digits of a natural number, most significant first
(the digit string produced by Python's `str`/`repr` on a non-negative int). -/
def natDigits (n : Nat) : List Char := natDigitsF (n + 1) n

/-- Character sequence of a Python int (`-` sign for negatives). -/
def intChars (i : Int) : List Char :=
  if i < 0 then '-' :: natDigits i.natAbs else natDigits i.natAbs

/-- Lowercase hex digit for `n < 16` (as produced when escaping control
characters in JSON strings). -/
def hexDigit (n : Nat) : Char :=
  if n < 10 then digitChar n else Char.ofNat (87 + n)

/-- Value of a hex digit character, if it is one. -/
def hexVal (c : Char) : Option Nat :=
  if 48 ≤ c.toNat ∧ c.toNat ≤ 57 then some (c.toNat - 48)
  else if 97 ≤ c.toNat ∧ c.toNat ≤ 102 then some (c.toNat - 87)
  else if 65 ≤ c.toNat ∧ c.toNat ≤ 70 then some (c.toNat - 55)
  else none

/-- Numeric value of a digit string (fold as `json`/`int` would). -/
def digitsVal (ds : List Char) : Nat :=
  ds.foldl (fun a c => a * 10 + (c.toNat - 48)) 0

/-- Thousands-separator grouping over a reversed digit list
(helper for `fmtComma`): a separator after every third character. -/
def groupRev : List Char → List Char
  | [] => []
  | [a] => [a]
  | [a, b] => [a, b]
  | [a, b, c] => [a, b, c]
  | a :: b :: c :: d :: tl => a :: b :: c :: ',' :: groupRev (d :: tl)

/-- Python's thousands-separated int format `f"{n:,}"` for naturals. -/
def fmtComma (n : Nat) : String :=
  String.mk (groupRev (natDigits n).reverse).reverse

/-- One-decimal rendering of `ms / 1000`, modelling `f"{ms/1000:.1f}"`
(without the trailing unit). The tenths digit is obtained by rounding
`ms / 100` half to even; Python formats the nearest binary double of
`ms / 1000`, which agrees except possibly when `ms % 100 == 50` exactly
(a floating-point boundary never exercised by any theorem below). -/
def fmtSec1 (ms : Nat) : String :=
  let q := ms / 100
  let r := ms % 100
  let tenths := if 50 < r then q + 1
    else if r < 50 then q
    else if q % 2 = 0 then q else q + 1
  String.mk (natDigits (tenths / 10)) ++ "." ++ String.mk (natDigits (tenths % 10))

/-- First `n` characters of a string: Python slice `s[:n]`
(code points, as in Python strings). -/
def strTake (n : Nat) (s : String) : String := String.mk (s.data.take n)

/-! ## JSON values

Modelled from the spec (§4.4 `persist`, §6 output convention, §8 item 4):
the scripts call the Python stdlib `json` module (`json.dump(gr, f, indent=2)`,
`json.loads(raw_content)`, `json.dumps(parsed, indent=2)`), which is not part
of the repository.  `JValue` is the JSON value type those calls operate on;
numbers are modelled as integers (every numeric field of the AI Response
Record is an int; binary floating point is outside the model). -/

inductive JValue where
  | null : JValue
  | bool : Bool → JValue
  | num : Int → JValue
  | str : String → JValue
  | arr : List JValue → JValue
  | obj : List (String × JValue) → JValue

/-- Escape one character inside a JSON string literal, as the serializer
writes it: `"` and `\` and the popular control characters get two-character
escapes, the remaining control characters get `\u00XX`, everything else is
written literally (Python's default `ensure_ascii=True` would instead escape
non-ASCII printable characters too; both spellings re-read to the same
character, so the round-trip behaviour modelled here is unchanged). -/
def escChar (c : Char) : List Char :=
  if c = '"' then ['\\', '"']
  else if c = '\\' then ['\\', '\\']
  else if c = '\n' then ['\\', 'n']
  else if c = '\t' then ['\\', 't']
  else if c = '\r' then ['\\', 'r']
  else if c.toNat < 32 then
    ['\\', 'u', '0', '0', hexDigit (c.toNat / 16), hexDigit (c.toNat % 16)]
  else [c]

/-- Escape a whole string body. -/
def escList : List Char → List Char
  | [] => []
  | c :: cs => escChar c ++ escList cs

/-- Newline followed by `ind` spaces: the separator `json.dump` emits
between items when `indent=2` is given. -/
def nlIndent (ind : Nat) : List Char := '\n' :: List.replicate ind ' '

mutual

/-- Serialize a JSON value at indentation level `ind`, as
`json.dumps(v, indent=2)` lays it out. -/
def serVal (ind : Nat) : JValue → List Char
  | .null => "null".data
  | .bool true => "true".data
  | .bool false => "false".data
  | .num i => intChars i
  | .str s => '"' :: (escList s.data ++ ['"'])
  | .arr [] => ['[', ']']
  | .arr (x :: xs) =>
      '[' :: (nlIndent (ind + 2) ++ serVal (ind + 2) x ++ serItems (ind + 2) xs
        ++ nlIndent ind ++ [']'])
  | .obj [] => [lbrace, rbrace]
  | .obj (⟨k, v⟩ :: ms) =>
      lbrace :: (nlIndent (ind + 2) ++ serMember (ind + 2) k v
        ++ serMembers (ind + 2) ms ++ nlIndent ind ++ [rbrace])
termination_by v => sizeOf v
decreasing_by all_goals (simp; try omega)

/-- Serialize the remaining array items (each preceded by `,` + newline). -/
def serItems (ind : Nat) : List JValue → List Char
  | [] => []
  | x :: xs => ',' :: (nlIndent ind ++ serVal ind x ++ serItems ind xs)
termination_by xs => sizeOf xs
decreasing_by all_goals (simp; try omega)

/-- Serialize one object member `"key": value`. -/
def serMember (ind : Nat) (k : String) (v : JValue) : List Char :=
  '"' :: (escList k.data ++ ['"', ':', ' '] ++ serVal ind v)
termination_by 1 + sizeOf v
decreasing_by all_goals (simp; try omega)

/-- Serialize the remaining object members (each preceded by `,` + newline). -/
def serMembers (ind : Nat) : List (String × JValue) → List Char
  | [] => []
  | ⟨k, v⟩ :: ms => ',' :: (nlIndent ind ++ serMember ind k v ++ serMembers ind ms)
termination_by ms => sizeOf ms
decreasing_by all_goals (simp; try omega)

end

/-- `json.dumps(v, indent=2)` / the bytes `json.dump(v, f, indent=2)` writes. -/
def jdumps (v : JValue) : String := String.mk (serVal 0 v)

/-- JSON insignificant whitespace. -/
def isWs (c : Char) : Bool := c = ' ' || c = '\n' || c = '\t' || c = '\r'

/-- Drop leading insignificant whitespace. -/
def skipWs : List Char → List Char
  | [] => []
  | c :: cs => if isWs c then skipWs cs else c :: cs

/-- Parse the body of a JSON string literal (the opening quote already
consumed), returning the decoded characters and the input after the
closing quote. -/
def parseStrBody (cs : List Char) : Option (List Char × List Char) :=
  match cs with
  | [] => none
  | c :: cs' =>
    if c = '"' then some ([], cs')
    else if c = '\\' then
      match cs' with
      | [] => none
      | e :: cs'' =>
        if e = '"' then
          (parseStrBody cs'').map (fun p => ('"' :: p.1, p.2))
        else if e = '\\' then
          (parseStrBody cs'').map (fun p => ('\\' :: p.1, p.2))
        else if e = '/' then
          (parseStrBody cs'').map (fun p => ('/' :: p.1, p.2))
        else if e = 'n' then
          (parseStrBody cs'').map (fun p => ('\n' :: p.1, p.2))
        else if e = 't' then
          (parseStrBody cs'').map (fun p => ('\t' :: p.1, p.2))
        else if e = 'r' then
          (parseStrBody cs'').map (fun p => ('\r' :: p.1, p.2))
        else if e = 'b' then
          (parseStrBody cs'').map (fun p => (Char.ofNat 8 :: p.1, p.2))
        else if e = 'f' then
          (parseStrBody cs'').map (fun p => (Char.ofNat 12 :: p.1, p.2))
        else if e = 'u' then
          match cs'' with
          | h1 :: h2 :: h3 :: h4 :: cs3 =>
            match hexVal h1, hexVal h2, hexVal h3, hexVal h4 with
            | some a, some b, some c2, some d =>
              (parseStrBody cs3).map
                (fun p => (Char.ofNat (((a * 16 + b) * 16 + c2) * 16 + d) :: p.1, p.2))
            | _, _, _, _ => none
          | _ => none
        else none
    else (parseStrBody cs').map (fun p => (c :: p.1, p.2))
termination_by cs.length
decreasing_by all_goals (simp only [List.length_cons]; omega)

/-- Parse a run of decimal digits (nonempty), returning its value. -/
def parseNatNum (cs : List Char) : Option (Nat × List Char) :=
  match cs.takeWhile Char.isDigit with
  | [] => none
  | ds => some (digitsVal ds, cs.dropWhile Char.isDigit)

mutual

/-- Fuel-indexed JSON value parser (the recursive core of `json.loads`):
skips whitespace, then dispatches on the first character. -/
def parseVal : Nat → List Char → Option (JValue × List Char)
  | 0, _ => none
  | fuel + 1, cs =>
    match skipWs cs with
    | [] => none
    | c :: rest =>
      if c.isDigit then
        match parseNatNum (c :: rest) with
        | some (n, r) => some (.num (n : Int), r)
        | none => none
      else if c = '-' then
        match parseNatNum rest with
        | some (n, r) => some (.num (-(n : Int)), r)
        | none => none
      else if c = '"' then
        match parseStrBody rest with
        | some (s, r) => some (.str (String.mk s), r)
        | none => none
      else if c = '[' then
        match skipWs rest with
        | ']' :: r => some (.arr [], r)
        | _ =>
          match parseVal fuel rest with
          | some (v, r) =>
            match parseArrTail fuel r with
            | some (vs, r') => some (.arr (v :: vs), r')
            | none => none
          | none => none
      else if c = lbrace then
        match skipWs rest with
        | [] => none
        | c2 :: r =>
          if c2 = rbrace then some (.obj [], r)
          else
            match parseMember fuel rest with
            | some (m, r') =>
              match parseObjTail fuel r' with
              | some (ms, r'') => some (.obj (m :: ms), r'')
              | none => none
            | none => none
      else
        match c :: rest with
        | 'n' :: 'u' :: 'l' :: 'l' :: r => some (.null, r)
        | 't' :: 'r' :: 'u' :: 'e' :: r => some (.bool true, r)
        | 'f' :: 'a' :: 'l' :: 's' :: 'e' :: r => some (.bool false, r)
        | _ => none

/-- After one array element: `,` and another element, or the closing `]`. -/
def parseArrTail : Nat → List Char → Option (List JValue × List Char)
  | 0, _ => none
  | fuel + 1, cs =>
    match skipWs cs with
    | [] => none
    | c :: r =>
      if c = ']' then some ([], r)
      else if c = ',' then
        match parseVal fuel r with
        | some (v, r') =>
          match parseArrTail fuel r' with
          | some (vs, r'') => some (v :: vs, r'')
          | none => none
        | none => none
      else none

/-- One object member: `"key"`, `:`, value. -/
def parseMember : Nat → List Char → Option ((String × JValue) × List Char)
  | 0, _ => none
  | fuel + 1, cs =>
    match skipWs cs with
    | [] => none
    | c :: r =>
      if c = '"' then
        match parseStrBody r with
        | some (k, r') =>
          match skipWs r' with
          | [] => none
          | c2 :: r'' =>
            if c2 = ':' then
              match parseVal fuel r'' with
              | some (v, r3) => some ((String.mk k, v), r3)
              | none => none
            else none
        | none => none
      else none

/-- After one object member: `,` and another member, or the closing brace. -/
def parseObjTail : Nat → List Char → Option (List (String × JValue) × List Char)
  | 0, _ => none
  | fuel + 1, cs =>
    match skipWs cs with
    | [] => none
    | c :: r =>
      if c = rbrace then some ([], r)
      else if c = ',' then
        match parseMember fuel r with
        | some (m, r') =>
          match parseObjTail fuel r' with
          | some (ms, r'') => some (m :: ms, r'')
          | none => none
        | none => none
      else none

end

/-- `json.loads`: one JSON value spanning the whole input (trailing
whitespace allowed).  The fuel `s.length + 1` dominates the recursion
depth of any value a string of that length can denote. -/
def jloads (s : String) : Option JValue :=
  match parseVal (s.length + 1) s.data with
  | some (v, rest) => if skipWs rest = [] then some v else none
  | none => none

/-! ## Data model

The two consumed entities (spec §3).  The scripts read them as Python
dicts with `dict.get(key, default)`; an `Option` field models presence of
the key.  (Python additionally treats a present-but-empty dict or string
as falsy; at the two places where the scripts rely on that — the raw
content and the classification — the embedding tests emptiness of the
defaulted value exactly as the code does.) -/

structure DocumentClassification where
  documentType : Option String
  documentSubtype : Option String
deriving DecidableEq, Repr

structure ParsedResult where
  documentClassification : Option DocumentClassification
deriving DecidableEq, Repr

/-- AI Response Record (`fullGrokResponse` payload). -/
structure GrokResponse where
  model : Option String
  prompt_tokens : Option Nat
  completion_tokens : Option Nat
  total_tokens : Option Nat
  response_time_ms : Option Nat
  timestamp : Option String
  full_response_content : Option String
  parsed_result : Option ParsedResult
deriving DecidableEq, Repr

/-- `rawExtractedData` object on a processed document. -/
structure RawExtractedData where
  fullGrokResponse : Option GrokResponse
deriving DecidableEq, Repr

/-- `propertyData` object on a Document Summary.  `fullGrokResponse` is the
inline location `view_grok_responses.display_document_list` probes
(`doc.get('propertyData', {}).get('fullGrokResponse')`);
`rawExtractedData.fullGrokResponse` is the inline location
`show_all_grok_responses` / `test_grok_access` probe. -/
structure PropertyData where
  rawExtractedData : Option RawExtractedData
  fullGrokResponse : Option GrokResponse
deriving DecidableEq, Repr

/-- Document Summary (spec §3). -/
structure Document where
  id : String
  originalName : String
  status : String
  uploadedAt : String
  propertyData : Option PropertyData
deriving DecidableEq, Repr

/-- `gr.get('parsed_result', {}).get('documentClassification')`, the guard
shared by all four scripts before printing the classification block. -/
def classificationOf (gr : GrokResponse) : Option DocumentClassification :=
  match gr.parsed_result with
  | some pr => pr.documentClassification
  | none => none

/-- The classification block the scripts print when `classificationOf` is
truthy (`header` is the block's first line, `pre` the per-line prefix). -/
def classificationLines (header pre : String) (gr : GrokResponse) : List String :=
  match classificationOf gr with
  | some dc =>
      [header,
       pre ++ "Type: " ++ dc.documentType.getD "N/A",
       pre ++ "Subtype: " ++ dc.documentSubtype.getD "N/A"]
  | none => []

/-! ## quick_grok_access.py -/

/-- Outcome of `requests.get(".../grok-response")` plus `.json()['fullGrokResponse']`
inside `show_grok_responses`'s inner `try`. -/
inductive GrokFetch where
  | ok (gr : GrokResponse)
  | httpError (code : Nat)
  | exc (msg : String)
deriving DecidableEq, Repr

/-- The processing-time line of `quick_grok_access.show_grok_responses`
(line 35): always seconds to one decimal, never milliseconds. -/
def quickTimeLine (gr : GrokResponse) : String :=
  "   Processing Time: " ++ fmtSec1 (gr.response_time_ms.getD 0) ++ "s"

/-- The raw-excerpt line of `quick_grok_access.show_grok_responses`
(line 41): first 300 characters with an unconditional `...` suffix. -/
def quickRawLine (raw : String) : String :=
  "   " ++ strTake 300 raw ++ "..."

/-- Lines printed for one document by `quick_grok_access.show_grok_responses`
(lines 19-56), given the outcome of the per-document grok-response fetch.
The fetch is attempted only in the `status == 'completed'` branch; in the
other branch the argument is unused, mirroring that the code performs no
request there. -/
def showGrokResponsesDoc (doc : Document) (fetch : GrokFetch) : List String :=
  ["📄 Document: " ++ doc.originalName,
   "   Status: " ++ doc.status] ++
  (if doc.status = "completed" then
    match fetch with
    | .ok gr =>
        ["   ✅ Full Grok Response Available!",
         "   Model: " ++ gr.model.getD "Unknown",
         "   Tokens: " ++ fmtComma (gr.total_tokens.getD 0),
         quickTimeLine gr] ++
        (let raw := gr.full_response_content.getD ""
         if raw ≠ "" then
           ["   🔍 RAW GROK RESPONSE (first 300 chars):",
            quickRawLine raw]
         else []) ++
        classificationLines "   📋 Document Classification:" "   " gr
    | .httpError code => ["   ❌ No Grok response: " ++ toString code]
    | .exc e => ["   ❌ Error accessing Grok response: " ++ e]
  else
    ["   ⏳ Document not yet processed"])

/-! ## show_all_grok_responses.py -/

/-- The inline record location consulted by `show_all_grok_responses`
(lines 30-35): `doc['propertyData']['rawExtractedData']['fullGrokResponse']`. -/
def showAllRecord (doc : Document) : Option GrokResponse :=
  match doc.propertyData with
  | some pd =>
      match pd.rawExtractedData with
      | some rd => rd.fullGrokResponse
      | none => none
  | none => none

/-- The time line of `show_all_grok_responses` (line 40): always seconds. -/
def showAllTimeLine (gr : GrokResponse) : String :=
  "   Time: " ++ fmtSec1 (gr.response_time_ms.getD 0) ++ "s"

/-- The sample line of `show_all_grok_responses` (line 52): first 100
characters with an unconditional `...` suffix. -/
def showAllSampleLine (raw : String) : String :=
  "   Sample: " ++ strTake 100 raw ++ "..."

/-- The classification pair as `show_all_grok_responses` / `test_grok_access`
print it (no block header line). -/
def showAllClassLines (gr : GrokResponse) : List String :=
  match classificationOf gr with
  | some dc =>
      ["   Type: " ++ dc.documentType.getD "N/A",
       "   Subtype: " ++ dc.documentSubtype.getD "N/A"]
  | none => []

/-- Lines printed for the `i`-th document (1-based) by
`show_all_grok_responses` (lines 24-63).  Note: no status check; the
record is rendered whenever the inline location holds one.  When raw
content is present the script also writes `jdumps gr` to
`grok_response_{doc.id[:8]}.json` (the `Saved to:` line). -/
def showAllDoc (i : Nat) (doc : Document) : List String :=
  [toString i ++ ". Document: " ++ doc.originalName,
   "   ID: " ++ doc.id,
   "   Status: " ++ doc.status,
   "   Uploaded: " ++ doc.uploadedAt] ++
  (match doc.propertyData with
   | some pd =>
     match pd.rawExtractedData with
     | some rd =>
       match rd.fullGrokResponse with
       | some gr =>
           ["   ✅ FULL GROK RESPONSE AVAILABLE",
            "   Model: " ++ gr.model.getD "Unknown",
            "   Tokens: " ++ fmtComma (gr.total_tokens.getD 0),
            showAllTimeLine gr] ++
           showAllClassLines gr ++
           (let raw := gr.full_response_content.getD ""
            if raw ≠ "" then
              ["   Raw response: " ++ fmtComma raw.length ++ " chars",
               showAllSampleLine raw,
               "   Saved to: grok_response_" ++ strTake 8 doc.id ++ ".json"]
            else [])
       | none => ["   ❌ No Grok response"]
     | none => ["   ❌ No processed data"]
   | none => ["   ❌ No processed data"])

/-- The per-document blocks of `show_all_grok_responses` over the whole
list (`for i, doc in enumerate(documents, 1)`), one block per document. -/
def showAllBlocks (docs : List Document) : List (List String) :=
  (List.enumFrom 1 docs).map fun p => showAllDoc p.1 p.2

/-! ## test_grok_access.py -/

/-- Bar of 50 `=` characters (`test_grok_access` line 30). -/
def eqBar50 : String := String.mk (List.replicate 50 '=')

/-- Bar of 50 `-` characters (`test_grok_access` lines 40/42). -/
def dashBar50 : String := String.mk (List.replicate 50 '-')

/-- Lines printed by `test_grok_access.get_grok_response` for the first
document (lines 19-62).  Same inline location as `show_all`, and again no
status check before rendering the record.  (In the no-record branch the
script also prints the keys of `rawExtractedData`, which the one-field
embedding of that object cannot enumerate; that second line is omitted.) -/
def testGrokDoc (doc : Document) : List String :=
  ["Document: " ++ doc.originalName,
   "Status: " ++ doc.status,
   "ID: " ++ doc.id] ++
  (match showAllRecord doc with
   | some gr =>
       ["✅ FULL GROK RESPONSE FOUND!",
        eqBar50,
        "Model: " ++ gr.model.getD "Unknown",
        "Total Tokens: " ++ fmtComma (gr.total_tokens.getD 0),
        "Processing Time: " ++ fmtSec1 (gr.response_time_ms.getD 0) ++ "s",
        "Timestamp: " ++ gr.timestamp.getD "N/A"] ++
       (let raw := gr.full_response_content.getD ""
        ["📄 Raw Response Length: " ++ fmtComma raw.length ++ " characters",
         "First 500 characters:",
         dashBar50,
         strTake 500 raw,
         dashBar50]) ++
       classificationLines "📋 Document Classification:" "" gr ++
       ["🎯 SUCCESS: Full Grok response is accessible!",
        "Saved full response to 'latest_grok_response.json'"]
   | none =>
       match doc.propertyData with
       | some pd =>
           match pd.rawExtractedData with
           | some rd => ["❌ No fullGrokResponse found in raw data"]
           | none => ["❌ No property data or raw extracted data found"]
       | none => ["❌ No property data or raw extracted data found"])

/-! ## view_grok_responses.py -/

/-- `format_tokens` (lines 14-15): thousands separators, `N/A` when the
value is falsy (absent or zero). -/
def format_tokens (tokens : Option Nat) : String :=
  match tokens with
  | some n => if n = 0 then "N/A" else fmtComma n
  | none => "N/A"

/-- `format_time` (lines 17-20): `N/A` when falsy, milliseconds below
1000, otherwise seconds to one decimal. -/
def format_time (ms : Option Nat) : String :=
  match ms with
  | none => "N/A"
  | some n =>
      if n = 0 then "N/A"
      else if n < 1000 then toString n ++ "ms"
      else fmtSec1 n ++ "s"

/-- The inline-record presence test of `display_document_list` (line 50):
`doc.get('propertyData', {}).get('fullGrokResponse') is not None`.
Note it reads `propertyData.fullGrokResponse`, not
`propertyData.rawExtractedData.fullGrokResponse`. -/
def viewHasGrok (doc : Document) : Bool :=
  match doc.propertyData with
  | some pd => pd.fullGrokResponse.isSome
  | none => false

/-- Modelled from the spec: the `Uploaded:` timestamp rendering of
`display_document_list` (line 55) calls the Python stdlib `datetime`
module (`datetime.fromisoformat(u.replace('Z', '+00:00')).strftime('%Y-%m-%d %H:%M:%S')`),
which is not in the repository.  On an ISO-8601 `uploadedAt` of the server's
shape (`YYYY-MM-DDTHH:MM:SS...`), that expression reproduces the date, a
space, and the seconds-resolution time — i.e. characters 0-9 and 11-18 of
the string, which is what this model extracts. -/
def uploadedDisplay (u : String) : String :=
  strTake 10 u ++ " " ++ String.mk ((u.data.drop 11).take 8)

/-- The lines of one listing entry of `display_document_list` (lines
53-55); `k` is the entry's 1-based position among the kept documents
(`len(grok_docs)` at print time). -/
def viewEntryLines (k : Nat) (doc : Document) : List String :=
  [toString k ++ ". " ++ doc.originalName,
   "   Status: " ++ doc.status,
   "   Uploaded: " ++ uploadedDisplay doc.uploadedAt]

/-- The entry blocks rendered by `display_document_list` (lines 48-56):
one block per document that passes `viewHasGrok`, in input order, numbered
consecutively from 1. -/
def viewListBlocks (docs : List Document) : List (List String) :=
  (List.enumFrom 1 (docs.filter viewHasGrok)).map fun p => viewEntryLines p.1 p.2

/-- The `grok_docs` list `display_document_list` returns (line 63). -/
def viewGrokDocs (docs : List Document) : List Document :=
  docs.filter viewHasGrok

/-- The truncation notice of `display_grok_response` (lines 103/108). -/
def truncNote (rawLen : Nat) : String :=
  "... (truncated, full content is " ++ fmtComma rawLen ++ " chars)"

/-- The raw-content section of `display_grok_response` (lines 96-110):
try `json.loads`; on success print the first 2000 characters of the
pretty-printed form, otherwise the first 2000 characters of the raw text;
either way add the truncation notice when the raw text exceeds 2000
characters.  A total function: the bare `except:` around the parse means
malformed content selects the fallback branch instead of raising. -/
def rawContentLines (raw : String) : List String :=
  if raw ≠ "" then
    match jloads raw with
    | some parsed =>
        [strTake 2000 (jdumps parsed)] ++
        (if 2000 < raw.length then [truncNote raw.length] else [])
    | none =>
        [strTake 2000 raw] ++
        (if 2000 < raw.length then [truncNote raw.length] else [])
  else ["No raw content available"]

/-- Bar of 80 `=` characters. -/
def eqBar : String := String.mk (List.replicate 80 '=')

/-- Bar of 80 `-` characters. -/
def dashBar : String := String.mk (List.replicate 80 '-')

/-- Lines printed by `display_grok_response` (lines 65-112) for a fetched
payload `{document: doc, fullGrokResponse: gr}`. -/
def display_grok_response (docName : String) (gr : GrokResponse) : List String :=
  [eqBar,
   "FULL GROK RESPONSE: " ++ docName,
   eqBar,
   "📊 PROCESSING METRICS:",
   "   Model: " ++ gr.model.getD "Unknown",
   "   Prompt Tokens: " ++ format_tokens gr.prompt_tokens,
   "   Completion Tokens: " ++ format_tokens gr.completion_tokens,
   "   Total Tokens: " ++ format_tokens gr.total_tokens,
   "   Processing Time: " ++ format_time gr.response_time_ms,
   "   Response Size: " ++ fmtComma (gr.full_response_content.getD "").length
     ++ " characters",
   "   Timestamp: " ++ gr.timestamp.getD "N/A",
   ""] ++
  classificationLines "📋 DOCUMENT CLASSIFICATION:" "   " gr ++
  ["📄 RAW GROK RESPONSE CONTENT:", dashBar] ++
  rawContentLines (gr.full_response_content.getD "") ++
  [dashBar, ""]

/-! ## The interactive selection loop of `view_grok_responses.main`
(lines 130-157). -/

/-- Python `str.strip()`: whitespace removed from both ends (Python also
strips some non-ASCII unicode spaces; the loop's comparisons only involve
ASCII tokens). -/
def pyStrip (s : String) : String :=
  String.mk (((s.data.dropWhile Char.isWhitespace).reverse.dropWhile
    Char.isWhitespace).reverse)

/-- Python `str.lower()` on the stripped token (ASCII case folding; the
loop only compares the result against `"q"`). -/
def pyLower (s : String) : String := String.mk (s.data.map Char.toLower)

/-- Python `int(s)` on an already-stripped token: optional sign followed
by at least one decimal digit (the underscore digit-grouping Python also
accepts is not modelled; no theorem below depends on it).  `none` models
the `ValueError` raise. -/
def pyInt (s : String) : Option Int :=
  match s.data with
  | [] => none
  | c :: rest =>
      let core := if c = '-' ∨ c = '+' then rest else c :: rest
      let sign : Int := if c = '-' then -1 else 1
      if core ≠ [] ∧ core.all Char.isDigit then
        some (sign * (digitsVal core : Int))
      else none

/-- What one iteration of the selection loop does with the entered line. -/
inductive LoopAction where
  /-- `choice.lower() == 'q'`: `break`, normal exit. -/
  | quitExit : LoopAction
  /-- `int(choice)` raised `ValueError`, caught by the loop's
  `except (ValueError, KeyboardInterrupt): break` — the loop terminates. -/
  | valueErrorExit : LoopAction
  /-- In-range selection: display (and optionally save) that document,
  then iterate again. -/
  | select (n : Nat) : LoopAction
  /-- Out-of-range number: print `Invalid selection.` and iterate again. -/
  | reprompt : LoopAction
deriving DecidableEq, Repr

/-- One step of the `while True` selection loop (lines 130-157) on the
entered line, with `numDocs = len(grok_docs)`. -/
def loopStep (line : String) (numDocs : Nat) : LoopAction :=
  let choice := pyStrip line
  if pyLower choice = "q" then .quitExit
  else
    match pyInt choice with
    | none => .valueErrorExit
    | some n =>
        if 1 ≤ n ∧ n ≤ (numDocs : Int) then .select n.toNat
        else .reprompt

/-- Does this loop action keep the loop running? -/
def loopContinues : LoopAction → Bool
  | .select _ => true
  | .reprompt => true
  | .quitExit => false
  | .valueErrorExit => false

/-! ## Exception-handler structure (spec §7)

A shallow embedding of each script's `try/except` nesting: which raised
exception classes are caught (anywhere) rather than propagating out of the
script as an uncaught crash. -/

/-- The exception classes relevant to the scripts' handlers. -/
inductive PyExc where
  | valueError
  | keyError
  | osError
  | requestException
  | jsonDecodeError
  | keyboardInterrupt
  | otherException
deriving DecidableEq, Repr

/-- Python class hierarchy: everything here derives from `Exception`
except `KeyboardInterrupt`, which derives only from `BaseException`. -/
def isExceptionSubclass : PyExc → Bool
  | .keyboardInterrupt => false
  | _ => true

/-- `quick_grok_access.show_grok_responses`: the whole body sits in
`try: ... except Exception as e` (lines 9-59), so exactly the
`Exception`-derived classes are caught. -/
def quickCaught (e : PyExc) : Bool := isExceptionSubclass e

/-- `show_all_grok_responses.show_all_grok_responses`: same outermost
`try: ... except Exception` shape (lines 9-79). -/
def showAllCaught (e : PyExc) : Bool := isExceptionSubclass e

/-- `test_grok_access.get_grok_response`: same outermost
`try: ... except Exception` shape (lines 10-67). -/
def testCaught (e : PyExc) : Bool := isExceptionSubclass e

/-- The places inside `view_grok_responses.main` (lines 114-159) where an
operation can raise. -/
inductive ViewSite where
  /-- inside `get_documents` (lines 24-30) -/
  | fetchDocuments
  /-- inside `display_document_list` (lines 42-63): no handler anywhere -/
  | displayList
  /-- inside `get_grok_response` (lines 34-40), called from the loop -/
  | fetchResponse
  /-- inside `display_grok_response` (lines 65-112), called from the loop -/
  | displayResponse
  /-- the `open`/`json.dump` save block (lines 148-151), inside the loop -/
  | saveFile
  /-- the `input()` calls themselves (lines 132/146), inside the loop -/
  | promptInput
deriving DecidableEq, Repr

/-- The loop's only handler: `except (ValueError, KeyboardInterrupt)`
(line 156). -/
def viewLoopHandler (e : PyExc) : Bool :=
  e = .valueError || e = .keyboardInterrupt

/-- Whether an exception `e` raised at `site` is caught by any handler of
`view_grok_responses` — `main` itself has no `try` around its body, so
whatever the reached handlers miss propagates out of the script. -/
def viewCaught (site : ViewSite) (e : PyExc) : Bool :=
  match site with
  | .fetchDocuments => isExceptionSubclass e
  | .displayList => false
  | .fetchResponse => isExceptionSubclass e || viewLoopHandler e
  | .displayResponse => viewLoopHandler e
  | .saveFile => viewLoopHandler e
  | .promptInput => viewLoopHandler e

/-! ## Node-count measure for the parser's fuel -/

mutual

/-- Node count of a JSON value (an upper bound on the fuel `parseVal`
consumes to read it back). -/
def jsizeV : JValue → Nat
  | .null => 1
  | .bool _ => 1
  | .num _ => 1
  | .str _ => 1
  | .arr xs => 1 + jsizeL xs
  | .obj ms => 1 + jsizeM ms
termination_by v => sizeOf v
decreasing_by all_goals (simp; try omega)

/-- Fuel bound for an array tail. -/
def jsizeL : List JValue → Nat
  | [] => 1
  | x :: xs => 1 + jsizeV x + jsizeL xs
termination_by xs => sizeOf xs
decreasing_by all_goals (simp; try omega)

/-- Fuel bound for an object tail. -/
def jsizeM : List (String × JValue) → Nat
  | [] => 1
  | ⟨_, v⟩ :: ms => 2 + jsizeV v + jsizeM ms
termination_by ms => sizeOf ms
decreasing_by all_goals (simp; try omega)

end

/-- The input does not begin with a decimal digit (so a number parsed just
before it stops exactly at its boundary). -/
def noDigitHead : List Char → Prop
  | [] => True
  | c :: _ => c.isDigit = false

/-! ## Sample data for concrete evaluations -/

/-- An AI Response Record with every optional field absent. -/
def grNone : GrokResponse :=
  { model := none, prompt_tokens := none, completion_tokens := none,
    total_tokens := none, response_time_ms := none, timestamp := none,
    full_response_content := none, parsed_result := none }

/-- A record whose only present field is `response_time_ms = 500`. -/
def gr500 : GrokResponse := { grNone with response_time_ms := some 500 }

/-- A document that is not completed but carries an inline record at
`propertyData.rawExtractedData.fullGrokResponse`. -/
def docPendingInline : Document :=
  { id := "docP0001", originalName := "p.pdf", status := "pending",
    uploadedAt := "2024-01-02T03:04:05Z",
    propertyData := some { rawExtractedData := some { fullGrokResponse := some grNone },
                           fullGrokResponse := none } }

/-- A completed document whose record exists only at the inline
`rawExtractedData` location (the detail endpoint has none for it). -/
def docInlineOnly : Document :=
  { docPendingInline with
    id := "docA0001"
    originalName := "a.pdf"
    status := "completed" }

/-- A completed document with no `propertyData` at all — its record, if
any, is only obtainable from the per-document detail endpoint. -/
def docEndpointOnly : Document :=
  { id := "docB0001", originalName := "b.pdf", status := "completed",
    uploadedAt := "2024-01-02T03:04:05Z", propertyData := none }

/-! # Theorems -/

/-! ## Digits, characters, whitespace -/

theorem digitChar_isDigit {n : Nat} (h : n < 10) : (digitChar n).isDigit = true := by
  interval_cases n <;> decide

theorem digitChar_toNat {n : Nat} (h : n < 10) : (digitChar n).toNat = 48 + n := by
  interval_cases n <;> decide

theorem digitsVal_snoc (ds : List Char) (d : Char) :
    digitsVal (ds ++ [d]) = digitsVal ds * 10 + (d.toNat - 48) := by
  unfold digitsVal
  rw [List.foldl_append]
  simp [Nat.mul_comm]

theorem natDigitsF_spec : ∀ f n : Nat, n < f →
    (∀ c ∈ natDigitsF f n, c.isDigit = true) ∧ natDigitsF f n ≠ [] ∧
      digitsVal (natDigitsF f n) = n := by
  intro f
  induction f with
  | zero => intro n h; omega
  | succ f ih =>
      intro n h
      by_cases h10 : n < 10
      · have he : natDigitsF (f + 1) n = [digitChar n] := by simp [natDigitsF, h10]
        refine ⟨?_, by simp [he], ?_⟩
        · intro c hc
          rw [he, List.mem_singleton] at hc
          subst hc
          exact digitChar_isDigit h10
        · rw [he]
          show digitsVal ([] ++ [digitChar n]) = n
          rw [digitsVal_snoc, digitChar_toNat h10]
          simp [digitsVal]
      · have hd : n / 10 < f := by
          have := Nat.div_lt_self (show 0 < n by omega) (show 1 < 10 by omega)
          omega
        obtain ⟨ha, hb, hc⟩ := ih (n / 10) hd
        have hmod : n % 10 < 10 := Nat.mod_lt _ (by omega)
        have he : natDigitsF (f + 1) n
            = natDigitsF f (n / 10) ++ [digitChar (n % 10)] := by
          simp [natDigitsF, h10]
        refine ⟨?_, by simp [he], ?_⟩
        · intro c hcm
          rw [he] at hcm
          rcases List.mem_append.mp hcm with h1 | h1
          · exact ha c h1
          · rw [List.mem_singleton] at h1
            subst h1
            exact digitChar_isDigit hmod
        · rw [he, digitsVal_snoc, hc, digitChar_toNat hmod]
          omega

theorem natDigits_all_digits (n : Nat) : ∀ c ∈ natDigits n, c.isDigit = true :=
  (natDigitsF_spec (n + 1) n (by omega)).1

theorem natDigits_ne_nil (n : Nat) : natDigits n ≠ [] :=
  (natDigitsF_spec (n + 1) n (by omega)).2.1

theorem digitsVal_natDigits (n : Nat) : digitsVal (natDigits n) = n :=
  (natDigitsF_spec (n + 1) n (by omega)).2.2

theorem isDigit_not_ws {c : Char} (h : c.isDigit = true) : isWs c = false := by
  cases hw : isWs c
  · rfl
  · exfalso
    simp only [isWs, Bool.or_eq_true, decide_eq_true_eq] at hw
    rcases hw with ((h1 | h1) | h1) | h1 <;> (subst h1; simp at h)

theorem skipWs_cons_of_not_ws {c : Char} (h : isWs c = false) (l : List Char) :
    skipWs (c :: l) = c :: l := by
  simp [skipWs, h]

theorem skipWs_append_of_ws {ws : List Char} (h : ∀ c ∈ ws, isWs c = true)
    (l : List Char) : skipWs (ws ++ l) = skipWs l := by
  induction ws with
  | nil => rfl
  | cons c cs ih =>
      have hc := h c (List.mem_cons_self c cs)
      simp only [List.cons_append, skipWs, hc, if_true]
      exact ih fun c hc => h c (List.mem_cons_of_mem _ hc)

theorem nlIndent_ws (ind : Nat) : ∀ c ∈ nlIndent ind, isWs c = true := by
  intro c hc
  rcases List.mem_cons.mp hc with h | h
  · subst h; rfl
  · rw [List.eq_of_mem_replicate h]; rfl

theorem skipWs_nlIndent (ind : Nat) (l : List Char) :
    skipWs (nlIndent ind ++ l) = skipWs l :=
  skipWs_append_of_ws (nlIndent_ws ind) l

theorem takeWhile_digits_append {ds rest : List Char}
    (h : ∀ c ∈ ds, c.isDigit = true) (h2 : noDigitHead rest) :
    (ds ++ rest).takeWhile Char.isDigit = ds := by
  induction ds with
  | nil =>
      cases rest with
      | nil => rfl
      | cons c l =>
          have hc : c.isDigit = false := h2
          simp [List.takeWhile_cons, hc]
  | cons c cs ih =>
      have hc := h c (List.mem_cons_self c cs)
      simp only [List.cons_append, List.takeWhile_cons, hc, if_true]
      rw [ih fun c hc => h c (List.mem_cons_of_mem _ hc)]

theorem dropWhile_digits_append {ds rest : List Char}
    (h : ∀ c ∈ ds, c.isDigit = true) (h2 : noDigitHead rest) :
    (ds ++ rest).dropWhile Char.isDigit = rest := by
  induction ds with
  | nil =>
      cases rest with
      | nil => rfl
      | cons c l =>
          have hc : c.isDigit = false := h2
          simp [List.dropWhile_cons, hc]
  | cons c cs ih =>
      have hc := h c (List.mem_cons_self c cs)
      simp only [List.cons_append, List.dropWhile_cons, hc, if_true]
      exact ih fun c hc => h c (List.mem_cons_of_mem _ hc)

theorem parseNatNum_natDigits (n : Nat) {rest : List Char} (h : noDigitHead rest) :
    parseNatNum (natDigits n ++ rest) = some (n, rest) := by
  unfold parseNatNum
  rw [takeWhile_digits_append (natDigits_all_digits n) h,
    dropWhile_digits_append (natDigits_all_digits n) h]
  obtain ⟨d, ds, hds⟩ := List.exists_cons_of_ne_nil (natDigits_ne_nil n)
  rw [hds]
  simp only []
  rw [← hds, digitsVal_natDigits]

/-! ## String-literal escaping round-trip -/

theorem hexVal_hexDigit {d : Nat} (h : d < 16) : hexVal (hexDigit d) = some d := by
  interval_cases d <;> decide

theorem parseStrBody_quote (l : List Char) : parseStrBody ('"' :: l) = some ([], l) := by
  rw [parseStrBody.eq_def]
  simp

theorem parseStrBody_cons_plain {c : Char} (h1 : c ≠ '"') (h2 : c ≠ '\\')
    (l : List Char) :
    parseStrBody (c :: l) = (parseStrBody l).map (fun p => (c :: p.1, p.2)) := by
  rw [parseStrBody.eq_def]
  simp [h1, h2]

theorem parseStrBody_esc_quote (l : List Char) :
    parseStrBody ('\\' :: '"' :: l) = (parseStrBody l).map (fun p => ('"' :: p.1, p.2)) := by
  rw [parseStrBody.eq_def]
  simp

theorem parseStrBody_esc_backslash (l : List Char) :
    parseStrBody ('\\' :: '\\' :: l) = (parseStrBody l).map (fun p => ('\\' :: p.1, p.2)) := by
  rw [parseStrBody.eq_def]
  simp

theorem parseStrBody_esc_n (l : List Char) :
    parseStrBody ('\\' :: 'n' :: l) = (parseStrBody l).map (fun p => ('\n' :: p.1, p.2)) := by
  rw [parseStrBody.eq_def]
  simp

theorem parseStrBody_esc_t (l : List Char) :
    parseStrBody ('\\' :: 't' :: l) = (parseStrBody l).map (fun p => ('\t' :: p.1, p.2)) := by
  rw [parseStrBody.eq_def]
  simp

theorem parseStrBody_esc_r (l : List Char) :
    parseStrBody ('\\' :: 'r' :: l) = (parseStrBody l).map (fun p => ('\r' :: p.1, p.2)) := by
  rw [parseStrBody.eq_def]
  simp

theorem parseStrBody_esc_u {x y : Nat} (hx : x < 16) (hy : y < 16) (l : List Char) :
    parseStrBody ('\\' :: 'u' :: '0' :: '0' :: hexDigit x :: hexDigit y :: l)
      = (parseStrBody l).map
          (fun p => (Char.ofNat (((0 * 16 + 0) * 16 + x) * 16 + y) :: p.1, p.2)) := by
  rw [parseStrBody.eq_def]
  simp [hexVal_hexDigit hx, hexVal_hexDigit hy, show hexVal '0' = some 0 from rfl]

theorem parseStrBody_escChar (c : Char) (l : List Char) :
    parseStrBody (escChar c ++ l) = (parseStrBody l).map (fun p => (c :: p.1, p.2)) := by
  by_cases h1 : c = '"'
  · subst h1
    exact parseStrBody_esc_quote l
  by_cases h2 : c = '\\'
  · subst h2
    exact parseStrBody_esc_backslash l
  by_cases h3 : c = '\n'
  · subst h3
    exact parseStrBody_esc_n l
  by_cases h4 : c = '\t'
  · subst h4
    exact parseStrBody_esc_t l
  by_cases h5 : c = '\r'
  · subst h5
    exact parseStrBody_esc_r l
  by_cases h6 : c.toNat < 32
  · have he : escChar c ++ l
        = '\\' :: 'u' :: '0' :: '0' :: hexDigit (c.toNat / 16)
          :: hexDigit (c.toNat % 16) :: l := by
      unfold escChar
      simp [h1, h2, h3, h4, h5, h6]
    rw [he, parseStrBody_esc_u (by omega) (by omega)]
    have harith : ((0 * 16 + 0) * 16 + c.toNat / 16) * 16 + c.toNat % 16 = c.toNat := by
      omega
    rw [harith, Char.ofNat_toNat]
  · have he : escChar c ++ l = c :: l := by
      unfold escChar
      simp [h1, h2, h3, h4, h5, h6]
    rw [he, parseStrBody_cons_plain h1 h2]

theorem parseStrBody_escList (s : List Char) (rest : List Char) :
    parseStrBody (escList s ++ '"' :: rest) = some (s, rest) := by
  induction s with
  | nil => exact parseStrBody_quote rest
  | cons c cs ih =>
      show parseStrBody ((escChar c ++ escList cs) ++ '"' :: rest) = _
      rw [List.append_assoc, parseStrBody_escChar, ih]
      rfl

/-! ## Shape of serializer output -/

theorem serVal_head (ind : Nat) (v : JValue) :
    ∃ c l, serVal ind v = c :: l ∧ isWs c = false ∧ c ≠ ']' := by
  cases v with
  | null => exact ⟨'n', ['u', 'l', 'l'], by simp [serVal], by decide, by decide⟩
  | bool b =>
      cases b
      · exact ⟨'f', ['a', 'l', 's', 'e'], by simp [serVal], by decide, by decide⟩
      · exact ⟨'t', ['r', 'u', 'e'], by simp [serVal], by decide, by decide⟩
  | num i =>
      by_cases hi : i < 0
      · exact ⟨'-', natDigits i.natAbs, by simp [serVal, intChars, hi], by decide, by decide⟩
      · obtain ⟨d, ds, hd⟩ := List.exists_cons_of_ne_nil (natDigits_ne_nil i.natAbs)
        have hdig : d.isDigit = true :=
          natDigits_all_digits _ d (hd ▸ List.mem_cons_self d ds)
        refine ⟨d, ds, by simp [serVal, intChars, hi, hd], isDigit_not_ws hdig, ?_⟩
        intro hc
        subst hc
        exact absurd hdig (by decide)
  | str s =>
      exact ⟨'"', escList s.data ++ ['"'], by simp [serVal], by decide, by decide⟩
  | arr xs =>
      cases xs with
      | nil => exact ⟨'[', [']'], by simp [serVal], by decide, by decide⟩
      | cons x xs =>
          exact ⟨'[', nlIndent (ind + 2) ++ serVal (ind + 2) x ++ serItems (ind + 2) xs
            ++ nlIndent ind ++ [']'], by simp [serVal], by decide, by decide⟩
  | obj ms =>
      cases ms with
      | nil => exact ⟨lbrace, [rbrace], by simp [serVal], by decide, by decide⟩
      | cons m ms =>
          obtain ⟨k, v⟩ := m
          exact ⟨lbrace, nlIndent (ind + 2) ++ serMember (ind + 2) k v
            ++ serMembers (ind + 2) ms ++ nlIndent ind ++ [rbrace],
            by simp [serVal], by decide, by decide⟩

/-- What follows a serialized array element (the rest of the items and the
closing separator) never starts with a digit. -/
theorem noDigitHead_serItems (indI indC : Nat) (xs : List JValue) (tail : List Char) :
    noDigitHead (serItems indI xs ++ (nlIndent indC ++ tail)) := by
  cases xs with
  | nil =>
      have h : serItems indI [] = [] := by simp [serItems]
      rw [h, List.nil_append]
      exact (by decide : ('\n').isDigit = false)
  | cons x xs =>
      have h : serItems indI (x :: xs)
          = ',' :: (nlIndent indI ++ serVal indI x ++ serItems indI xs) := by
        simp [serItems]
      rw [h, List.cons_append]
      exact (by decide : (',').isDigit = false)

/-- Likewise for serialized object members. -/
theorem noDigitHead_serMembers (indI indC : Nat) (ms : List (String × JValue))
    (tail : List Char) :
    noDigitHead (serMembers indI ms ++ (nlIndent indC ++ tail)) := by
  cases ms with
  | nil =>
      have h : serMembers indI [] = [] := by simp [serMembers]
      rw [h, List.nil_append]
      exact (by decide : ('\n').isDigit = false)
  | cons m ms =>
      obtain ⟨k, v⟩ := m
      have h : serMembers indI (⟨k, v⟩ :: ms)
          = ',' :: (nlIndent indI ++ serMember indI k v ++ serMembers indI ms) := by
        simp [serMembers]
      rw [h, List.cons_append]
      exact (by decide : (',').isDigit = false)

/-! ## Whitespace invariance of the parsers -/

theorem parseVal_ws {ws : List Char} (h : ∀ c ∈ ws, isWs c = true)
    (fuel : Nat) (l : List Char) :
    parseVal fuel (ws ++ l) = parseVal fuel l := by
  cases fuel with
  | zero => rfl
  | succ f =>
      simp only [parseVal]
      rw [skipWs_append_of_ws h]

theorem parseArrTail_ws {ws : List Char} (h : ∀ c ∈ ws, isWs c = true)
    (fuel : Nat) (l : List Char) :
    parseArrTail fuel (ws ++ l) = parseArrTail fuel l := by
  cases fuel with
  | zero => rfl
  | succ f =>
      simp only [parseArrTail]
      rw [skipWs_append_of_ws h]

theorem parseObjTail_ws {ws : List Char} (h : ∀ c ∈ ws, isWs c = true)
    (fuel : Nat) (l : List Char) :
    parseObjTail fuel (ws ++ l) = parseObjTail fuel l := by
  cases fuel with
  | zero => rfl
  | succ f =>
      simp only [parseObjTail]
      rw [skipWs_append_of_ws h]

theorem parseMember_ws {ws : List Char} (h : ∀ c ∈ ws, isWs c = true)
    (fuel : Nat) (l : List Char) :
    parseMember fuel (ws ++ l) = parseMember fuel l := by
  cases fuel with
  | zero => rfl
  | succ f =>
      simp only [parseMember]
      rw [skipWs_append_of_ws h]

/-! ## One-step reductions of the parser at known heads -/

theorem parseVal_succ_null (f : Nat) (r : List Char) :
    parseVal (f + 1) ('n' :: 'u' :: 'l' :: 'l' :: r) = some (.null, r) := by
  rw [parseVal.eq_def]
  simp [skipWs, isWs, lbrace, rbrace]

theorem parseVal_succ_true (f : Nat) (r : List Char) :
    parseVal (f + 1) ('t' :: 'r' :: 'u' :: 'e' :: r) = some (.bool true, r) := by
  rw [parseVal.eq_def]
  simp [skipWs, isWs, lbrace, rbrace]

theorem parseVal_succ_false (f : Nat) (r : List Char) :
    parseVal (f + 1) ('f' :: 'a' :: 'l' :: 's' :: 'e' :: r) = some (.bool false, r) := by
  rw [parseVal.eq_def]
  simp [skipWs, isWs, lbrace, rbrace]

theorem parseVal_succ_str {l : List Char} {s r : List Char}
    (h : parseStrBody l = some (s, r)) (f : Nat) :
    parseVal (f + 1) ('"' :: l) = some (.str (String.mk s), r) := by
  rw [parseVal.eq_def]
  simp [skipWs, isWs, h]

theorem parseVal_succ_digit {c : Char} (hdig : c.isDigit = true) {l : List Char}
    {n : Nat} {r : List Char} (h : parseNatNum (c :: l) = some (n, r)) (f : Nat) :
    parseVal (f + 1) (c :: l) = some (.num (n : Int), r) := by
  rw [parseVal.eq_def]
  simp [skipWs_cons_of_not_ws (isDigit_not_ws hdig), hdig, h]

theorem parseVal_succ_neg {l : List Char} {n : Nat} {r : List Char}
    (h : parseNatNum l = some (n, r)) (f : Nat) :
    parseVal (f + 1) ('-' :: l) = some (.num (-(n : Int)), r) := by
  rw [parseVal.eq_def]
  simp [skipWs, isWs, h]

theorem parseVal_succ_arr_empty {l r : List Char} (h : skipWs l = ']' :: r) (f : Nat) :
    parseVal (f + 1) ('[' :: l) = some (.arr [], r) := by
  rw [parseVal.eq_def]
  simp [skipWs, isWs, h]

theorem parseVal_succ_arr_cons {l : List Char} {c0 : Char} {l0 : List Char}
    (hsk : skipWs l = c0 :: l0) (hc0 : c0 ≠ ']') {f : Nat} {v : JValue}
    {r : List Char} {vs : List JValue} {r' : List Char}
    (h1 : parseVal f l = some (v, r)) (h2 : parseArrTail f r = some (vs, r')) :
    parseVal (f + 1) ('[' :: l) = some (.arr (v :: vs), r') := by
  rw [parseVal.eq_def]
  simp [skipWs, isWs, hsk, hc0, h1, h2]

theorem parseVal_succ_obj_empty {l r : List Char} (h : skipWs l = rbrace :: r) (f : Nat) :
    parseVal (f + 1) (lbrace :: l) = some (.obj [], r) := by
  rw [parseVal.eq_def]
  simp [skipWs, isWs, h, lbrace, rbrace]

theorem parseVal_succ_obj_cons {l : List Char} {c2 : Char} {l2 : List Char}
    (hsk : skipWs l = c2 :: l2) (hc2 : c2 ≠ rbrace) {f : Nat}
    {m : String × JValue} {r : List Char} {ms : List (String × JValue)} {r' : List Char}
    (h1 : parseMember f l = some (m, r)) (h2 : parseObjTail f r = some (ms, r')) :
    parseVal (f + 1) (lbrace :: l) = some (.obj (m :: ms), r') := by
  have hc2u : c2 ≠ Char.ofNat 125 := by simpa [rbrace] using hc2
  rw [parseVal.eq_def]
  simp [skipWs, isWs, hsk, hc2u, h1, h2, lbrace, rbrace]

theorem parseArrTail_succ_close (f : Nat) (r : List Char) :
    parseArrTail (f + 1) (']' :: r) = some ([], r) := by
  rw [parseArrTail.eq_def]
  simp [skipWs, isWs, lbrace, rbrace]

theorem parseArrTail_succ_comma {f : Nat} {l : List Char} {v : JValue} {r : List Char}
    {vs : List JValue} {r' : List Char}
    (h1 : parseVal f l = some (v, r)) (h2 : parseArrTail f r = some (vs, r')) :
    parseArrTail (f + 1) (',' :: l) = some (v :: vs, r') := by
  rw [parseArrTail.eq_def]
  simp [skipWs, isWs, h1, h2]

theorem parseObjTail_succ_close (f : Nat) (r : List Char) :
    parseObjTail (f + 1) (rbrace :: r) = some ([], r) := by
  rw [parseObjTail.eq_def]
  simp [skipWs, isWs, lbrace, rbrace]

theorem parseObjTail_succ_comma {f : Nat} {l : List Char} {m : String × JValue}
    {r : List Char} {ms : List (String × JValue)} {r' : List Char}
    (h1 : parseMember f l = some (m, r)) (h2 : parseObjTail f r = some (ms, r')) :
    parseObjTail (f + 1) (',' :: l) = some (m :: ms, r') := by
  rw [parseObjTail.eq_def]
  simp [skipWs, isWs, h1, h2, rbrace]

theorem parseMember_succ {l : List Char} {kcs r' : List Char}
    (h1 : parseStrBody l = some (kcs, r')) {l2 : List Char}
    (hsk : skipWs r' = ':' :: l2) {f : Nat} {v : JValue} {r3 : List Char}
    (h2 : parseVal f l2 = some (v, r3)) :
    parseMember (f + 1) ('"' :: l) = some ((String.mk kcs, v), r3) := by
  rw [parseMember.eq_def]
  simp [skipWs, isWs, h1, hsk, h2]

/-! ## The node count is dominated by the serialized length -/

theorem nlIndent_length (ind : Nat) : (nlIndent ind).length = ind + 1 := by
  simp [nlIndent]

mutual

theorem jsizeV_le (ind : Nat) (v : JValue) : jsizeV v ≤ (serVal ind v).length := by
  cases v with
  | null => simp [jsizeV, serVal]
  | bool b => cases b <;> simp [jsizeV, serVal]
  | num i =>
      have h : intChars i ≠ [] := by
        unfold intChars
        split
        · simp
        · exact natDigits_ne_nil _
      have := List.length_pos.mpr h
      simp only [jsizeV, serVal]
      omega
  | str s => simp [jsizeV, serVal]
  | arr xs =>
      cases xs with
      | nil => simp [jsizeV, jsizeL, serVal]
      | cons x xs =>
          have h1 := jsizeV_le (ind + 2) x
          have h2 := jsizeL_le (ind + 2) xs
          simp only [jsizeV, jsizeL, serVal, List.length_cons, List.length_append,
            nlIndent_length]
          omega
  | obj ms =>
      cases ms with
      | nil => simp [jsizeV, jsizeM, serVal]
      | cons m ms =>
          obtain ⟨k, v⟩ := m
          have h1 := jsizeV_le (ind + 2) v
          have h2 := jsizeM_le (ind + 2) ms
          simp only [jsizeV, jsizeM, serVal, serMember, List.length_cons,
            List.length_append, nlIndent_length]
          omega
termination_by sizeOf v
decreasing_by all_goals (simp; try omega)

theorem jsizeL_le (ind : Nat) (xs : List JValue) :
    jsizeL xs ≤ (serItems ind xs).length + 1 := by
  cases xs with
  | nil => simp [jsizeL, serItems]
  | cons x xs =>
      have h1 := jsizeV_le ind x
      have h2 := jsizeL_le ind xs
      simp only [jsizeL, serItems, List.length_cons, List.length_append, nlIndent_length]
      omega
termination_by sizeOf xs
decreasing_by all_goals (simp; try omega)

theorem jsizeM_le (ind : Nat) (ms : List (String × JValue)) :
    jsizeM ms ≤ (serMembers ind ms).length + 1 := by
  cases ms with
  | nil => simp [jsizeM, serMembers]
  | cons m ms =>
      obtain ⟨k, v⟩ := m
      have h1 := jsizeV_le ind v
      have h2 := jsizeM_le ind ms
      simp only [jsizeM, serMembers, serMember, List.length_cons, List.length_append,
        nlIndent_length]
      omega
termination_by sizeOf ms
decreasing_by all_goals (simp; try omega)

end

/-! ## The parser inverts the serializer -/

mutual

theorem parseVal_serVal (fuel : Nat) (v : JValue) (ind : Nat) (rest : List Char)
    (hf : jsizeV v ≤ fuel) (hr : noDigitHead rest) :
    parseVal fuel (serVal ind v ++ rest) = some (v, rest) := by
  match fuel with
  | 0 =>
      exfalso
      cases v <;> simp [jsizeV] at hf
  | f + 1 =>
    cases v with
    | null =>
        rw [show serVal ind JValue.null ++ rest = 'n' :: 'u' :: 'l' :: 'l' :: rest by
          simp [serVal]]
        exact parseVal_succ_null f rest
    | bool b =>
        cases b
        · rw [show serVal ind (JValue.bool false) ++ rest
              = 'f' :: 'a' :: 'l' :: 's' :: 'e' :: rest by simp [serVal]]
          exact parseVal_succ_false f rest
        · rw [show serVal ind (JValue.bool true) ++ rest
              = 't' :: 'r' :: 'u' :: 'e' :: rest by simp [serVal]]
          exact parseVal_succ_true f rest
    | num i =>
        by_cases hi : i < 0
        · rw [show serVal ind (JValue.num i) ++ rest
              = '-' :: (natDigits i.natAbs ++ rest) by simp [serVal, intChars, hi]]
          rw [parseVal_succ_neg (parseNatNum_natDigits i.natAbs hr) f]
          have hv : -((i.natAbs : Nat) : Int) = i := by omega
          rw [hv]
        · obtain ⟨d, ds, hd⟩ := List.exists_cons_of_ne_nil (natDigits_ne_nil i.natAbs)
          have hdig : d.isDigit = true :=
            natDigits_all_digits _ d (hd ▸ List.mem_cons_self d ds)
          have hnum : parseNatNum (d :: (ds ++ rest)) = some (i.natAbs, rest) := by
            have := parseNatNum_natDigits i.natAbs hr
            rwa [hd, List.cons_append] at this
          rw [show serVal ind (JValue.num i) ++ rest
              = d :: (ds ++ rest) by
            simp [serVal, intChars, hi, hd]]
          rw [parseVal_succ_digit hdig hnum f]
          have hv : ((i.natAbs : Nat) : Int) = i := Int.natAbs_of_nonneg (by omega)
          rw [hv]
    | str s =>
        rw [show serVal ind (JValue.str s) ++ rest
            = '"' :: (escList s.data ++ '"' :: rest) by simp [serVal]]
        exact parseVal_succ_str (parseStrBody_escList s.data rest) f
    | arr xs =>
        cases xs with
        | nil =>
            rw [show serVal ind (JValue.arr []) ++ rest = '[' :: ']' :: rest by
              simp [serVal]]
            exact parseVal_succ_arr_empty
              (skipWs_cons_of_not_ws (by decide) rest) f
        | cons x xs =>
            have hfx : jsizeV x ≤ f ∧ jsizeL xs ≤ f := by
              simp only [jsizeV, jsizeL] at hf
              omega
            obtain ⟨c0, l0, hs0, hw0, hne0⟩ := serVal_head (ind + 2) x
            rw [show serVal ind (JValue.arr (x :: xs)) ++ rest
                = '[' :: (nlIndent (ind + 2) ++ (serVal (ind + 2) x
                    ++ (serItems (ind + 2) xs ++ (nlIndent ind ++ (']' :: rest))))) by
              simp [serVal]]
            have hsk : skipWs (nlIndent (ind + 2) ++ (serVal (ind + 2) x
                ++ (serItems (ind + 2) xs ++ (nlIndent ind ++ (']' :: rest)))))
                = c0 :: (l0 ++ (serItems (ind + 2) xs
                    ++ (nlIndent ind ++ (']' :: rest)))) := by
              rw [skipWs_nlIndent, hs0, List.cons_append,
                skipWs_cons_of_not_ws hw0]
            have h1 : parseVal f (nlIndent (ind + 2) ++ (serVal (ind + 2) x
                ++ (serItems (ind + 2) xs ++ (nlIndent ind ++ (']' :: rest)))))
                = some (x, serItems (ind + 2) xs ++ (nlIndent ind ++ (']' :: rest))) := by
              rw [parseVal_ws (nlIndent_ws _)]
              exact parseVal_serVal f x (ind + 2) _ hfx.1
                (noDigitHead_serItems (ind + 2) ind xs (']' :: rest))
            have h2 : parseArrTail f (serItems (ind + 2) xs
                ++ (nlIndent ind ++ (']' :: rest))) = some (xs, rest) :=
              parseArrTail_serItems f xs (ind + 2) ind rest hfx.2
            exact parseVal_succ_arr_cons hsk hne0 h1 h2
    | obj ms =>
        cases ms with
        | nil =>
            rw [show serVal ind (JValue.obj []) ++ rest = lbrace :: rbrace :: rest by
              simp [serVal]]
            exact parseVal_succ_obj_empty
              (skipWs_cons_of_not_ws (by decide) rest) f
        | cons m ms =>
            obtain ⟨k, v⟩ := m
            have hfx : jsizeV v + 1 ≤ f ∧ jsizeM ms ≤ f := by
              simp only [jsizeV, jsizeM] at hf
              omega
            rw [show serVal ind (JValue.obj (⟨k, v⟩ :: ms)) ++ rest
                = lbrace :: (nlIndent (ind + 2) ++ (serMember (ind + 2) k v
                    ++ (serMembers (ind + 2) ms ++ (nlIndent ind ++ (rbrace :: rest))))) by
              simp [serVal]]
            have hsm : serMember (ind + 2) k v
                ++ (serMembers (ind + 2) ms ++ (nlIndent ind ++ (rbrace :: rest)))
                = '"' :: (escList k.data ++ ('"' :: ':' :: ' ' :: (serVal (ind + 2) v
                    ++ (serMembers (ind + 2) ms
                      ++ (nlIndent ind ++ (rbrace :: rest)))))) := by
              simp [serMember]
            have hsk : skipWs (nlIndent (ind + 2) ++ (serMember (ind + 2) k v
                ++ (serMembers (ind + 2) ms ++ (nlIndent ind ++ (rbrace :: rest)))))
                = '"' :: (escList k.data ++ ('"' :: ':' :: ' ' :: (serVal (ind + 2) v
                    ++ (serMembers (ind + 2) ms
                      ++ (nlIndent ind ++ (rbrace :: rest)))))) := by
              rw [skipWs_nlIndent, hsm, skipWs_cons_of_not_ws (by decide)]
            have h1 : parseMember f (nlIndent (ind + 2) ++ (serMember (ind + 2) k v
                ++ (serMembers (ind + 2) ms ++ (nlIndent ind ++ (rbrace :: rest)))))
                = some ((k, v), serMembers (ind + 2) ms
                    ++ (nlIndent ind ++ (rbrace :: rest))) := by
              rw [parseMember_ws (nlIndent_ws _)]
              exact parseMember_serMember f k v (ind + 2) _ hfx.1
                (noDigitHead_serMembers (ind + 2) ind ms (rbrace :: rest))
            have h2 : parseObjTail f (serMembers (ind + 2) ms
                ++ (nlIndent ind ++ (rbrace :: rest))) = some (ms, rest) :=
              parseObjTail_serMembers f ms (ind + 2) ind rest hfx.2
            exact parseVal_succ_obj_cons hsk (by decide) h1 h2

theorem parseArrTail_serItems (fuel : Nat) (xs : List JValue) (indI indC : Nat)
    (rest : List Char) (hf : jsizeL xs ≤ fuel) :
    parseArrTail fuel (serItems indI xs ++ (nlIndent indC ++ (']' :: rest)))
      = some (xs, rest) := by
  match fuel with
  | 0 =>
      exfalso
      cases xs <;> simp [jsizeL] at hf
  | f + 1 =>
    cases xs with
    | nil =>
        rw [show serItems indI [] ++ (nlIndent indC ++ (']' :: rest))
            = nlIndent indC ++ (']' :: rest) by simp [serItems]]
        rw [parseArrTail_ws (nlIndent_ws _)]
        exact parseArrTail_succ_close f rest
    | cons y ys =>
        have hfx : jsizeV y ≤ f ∧ jsizeL ys ≤ f := by
          simp only [jsizeL] at hf
          omega
        rw [show serItems indI (y :: ys) ++ (nlIndent indC ++ (']' :: rest))
            = ',' :: (nlIndent indI ++ (serVal indI y
                ++ (serItems indI ys ++ (nlIndent indC ++ (']' :: rest))))) by
          simp [serItems]]
        have h1 : parseVal f (nlIndent indI ++ (serVal indI y
            ++ (serItems indI ys ++ (nlIndent indC ++ (']' :: rest)))))
            = some (y, serItems indI ys ++ (nlIndent indC ++ (']' :: rest))) := by
          rw [parseVal_ws (nlIndent_ws _)]
          exact parseVal_serVal f y indI _ hfx.1
            (noDigitHead_serItems indI indC ys (']' :: rest))
        have h2 : parseArrTail f (serItems indI ys ++ (nlIndent indC ++ (']' :: rest)))
            = some (ys, rest) := parseArrTail_serItems f ys indI indC rest hfx.2
        exact parseArrTail_succ_comma h1 h2

theorem parseObjTail_serMembers (fuel : Nat) (ms : List (String × JValue))
    (indI indC : Nat) (rest : List Char) (hf : jsizeM ms ≤ fuel) :
    parseObjTail fuel (serMembers indI ms ++ (nlIndent indC ++ (rbrace :: rest)))
      = some (ms, rest) := by
  match fuel with
  | 0 =>
      exfalso
      cases ms with
      | nil => simp [jsizeM] at hf
      | cons m ms => obtain ⟨k, v⟩ := m; simp [jsizeM] at hf
  | f + 1 =>
    cases ms with
    | nil =>
        rw [show serMembers indI [] ++ (nlIndent indC ++ (rbrace :: rest))
            = nlIndent indC ++ (rbrace :: rest) by simp [serMembers]]
        rw [parseObjTail_ws (nlIndent_ws _)]
        exact parseObjTail_succ_close f rest
    | cons m ms =>
        obtain ⟨k, v⟩ := m
        have hfx : jsizeV v + 1 ≤ f ∧ jsizeM ms ≤ f := by
          simp only [jsizeM] at hf
          omega
        rw [show serMembers indI (⟨k, v⟩ :: ms) ++ (nlIndent indC ++ (rbrace :: rest))
            = ',' :: (nlIndent indI ++ (serMember indI k v
                ++ (serMembers indI ms ++ (nlIndent indC ++ (rbrace :: rest))))) by
          simp [serMembers]]
        have h1 : parseMember f (nlIndent indI ++ (serMember indI k v
            ++ (serMembers indI ms ++ (nlIndent indC ++ (rbrace :: rest)))))
            = some ((k, v), serMembers indI ms
                ++ (nlIndent indC ++ (rbrace :: rest))) := by
          rw [parseMember_ws (nlIndent_ws _)]
          exact parseMember_serMember f k v indI _ hfx.1
            (noDigitHead_serMembers indI indC ms (rbrace :: rest))
        have h2 : parseObjTail f (serMembers indI ms
            ++ (nlIndent indC ++ (rbrace :: rest))) = some (ms, rest) :=
          parseObjTail_serMembers f ms indI indC rest hfx.2
        exact parseObjTail_succ_comma h1 h2

theorem parseMember_serMember (fuel : Nat) (k : String) (v : JValue) (ind : Nat)
    (rest : List Char) (hf : jsizeV v + 1 ≤ fuel) (hr : noDigitHead rest) :
    parseMember fuel (serMember ind k v ++ rest) = some ((k, v), rest) := by
  match fuel with
  | 0 => exact absurd hf (by omega)
  | f + 1 =>
    rw [show serMember ind k v ++ rest
        = '"' :: (escList k.data ++ ('"' :: (':' :: ' ' :: (serVal ind v ++ rest)))) by
      simp [serMember]]
    have h1 := parseStrBody_escList k.data (':' :: ' ' :: (serVal ind v ++ rest))
    have hsk : skipWs (':' :: ' ' :: (serVal ind v ++ rest))
        = ':' :: ' ' :: (serVal ind v ++ rest) :=
      skipWs_cons_of_not_ws (by decide) _
    have h2 : parseVal f (' ' :: (serVal ind v ++ rest)) = some (v, rest) := by
      rw [show (' ' :: (serVal ind v ++ rest)) = [' '] ++ (serVal ind v ++ rest) from rfl,
        parseVal_ws (by intro c hc; rw [List.mem_singleton] at hc; subst hc; rfl)]
      exact parseVal_serVal f v ind rest (by omega) hr
    have := parseMember_succ h1 hsk h2
    rwa [show String.mk k.data = k from rfl] at this

end

/-- Round-trip: re-parsing a pretty-printed JSON value recovers it. -/
theorem jloads_jdumps (v : JValue) : jloads (jdumps v) = some v := by
  unfold jloads jdumps
  have hfuel : jsizeV v ≤ (serVal 0 v).length + 1 :=
    le_trans (jsizeV_le 0 v) (by omega)
  have h := parseVal_serVal ((serVal 0 v).length + 1) v 0 [] hfuel trivial
  rw [List.append_nil] at h
  rw [show (String.mk (serVal 0 v)).length = (serVal 0 v).length from rfl,
    show (String.mk (serVal 0 v)).data = serVal 0 v from rfl, h]
  rfl

/-- Taking at least the whole string is the identity. -/
theorem strTake_of_length_le {s : String} {n : Nat} (h : s.length ≤ n) :
    strTake n s = s := by
  unfold strTake
  rw [List.take_of_length_le h]

/-! # Claims -/

/-- C7: for every JSON value (in particular every AI Response Record the
scripts persist with `json.dump(gr, f, indent=2)`), writing the
pretty-printed serialization and re-reading it with `json.loads`
reproduces the value exactly. -/
theorem C7_persist_roundtrip : ∀ v : JValue, jloads (jdumps v) = some v :=
  jloads_jdumps

/-- C9: when `display_grok_response` renders `full_response_content`, it
first tries `json.loads`: on success it prints the (excerpted)
pretty-printed form, on failure it falls back to the (excerpted) raw text;
`rawContentLines` is a total function, so malformed content selects the
fallback branch rather than aborting the render. -/
theorem C9_pretty_or_fallback (raw : String) (hne : raw ≠ "") :
    (∀ v, jloads raw = some v →
        rawContentLines raw
          = [strTake 2000 (jdumps v)]
            ++ (if 2000 < raw.length then [truncNote raw.length] else []))
    ∧ (jloads raw = none →
        rawContentLines raw
          = [strTake 2000 raw]
            ++ (if 2000 < raw.length then [truncNote raw.length] else [])) := by
  constructor
  · intro v hv
    simp [rawContentLines, hne, hv]
  · intro hv
    simp [rawContentLines, hne, hv]

/-- C9 witness: the spec's own test vector `'not json'` takes the fallback
branch and renders the raw text. -/
theorem C9_witness : rawContentLines "not json" = ["not json"] := by
  have h := (C9_pretty_or_fallback "not json" (by decide)).2 rfl
  simpa using h

/-- C1 counterexample: at the `quick_grok_access` call site (excerpt bound
N = 300) a 3-character content renders with a `...` suffix even though its
length is at most N, contradicting the claimed no-suffix behaviour for
short contents. -/
theorem C1_counterexample :
    ("abc" : String).length ≤ 300
      ∧ quickRawLine "abc" = "   abc..."
      ∧ quickRawLine "abc" ≠ "   abc" :=
  ⟨by decide, rfl, by decide⟩

/-- C1 amended: only the `display_grok_response` raw-text call site follows
the claim (full content and no suffix when length ≤ 2000; first 2000
characters plus a truncation note carrying the total length otherwise).
The `quick_grok_access` and `show_all_grok_responses` call sites always
append a bare `...` to the first 300 (resp. 100) characters, with no
count, even when the content fits the bound. -/
theorem C1_excerpts (raw : String) (hne : raw ≠ "") (hj : jloads raw = none) :
    (raw.length ≤ 2000 → rawContentLines raw = [raw])
    ∧ (2000 < raw.length →
        rawContentLines raw = [strTake 2000 raw, truncNote raw.length])
    ∧ quickRawLine raw = "   " ++ strTake 300 raw ++ "..."
    ∧ showAllSampleLine raw = "   Sample: " ++ strTake 100 raw ++ "..." := by
  refine ⟨?_, ?_, rfl, rfl⟩
  · intro h
    simp [rawContentLines, hne, hj, Nat.not_lt.mpr h, strTake_of_length_le h]
  · intro h
    simp [rawContentLines, hne, hj, h]

/-- C1 witness: a short non-JSON content is rendered in full, with no
truncation suffix, by the `display_grok_response` call site. -/
theorem C1_excerpts_witness : rawContentLines "xy" = ["xy"] :=
  (C1_excerpts "xy" (by decide) rfl).1 (by decide)

/-- C2 counterexample: `docInlineOnly` carries a record at the inline
location, yet when the detail endpoint answers 404 `quick_grok_access`
reports "No Grok response" instead of using the inline record; dually,
`docEndpointOnly` (record reachable only through the endpoint)
makes `show_all_grok_responses` report "No processed data".  So neither
script treats "either location" as a valid source. -/
theorem C2_counterexample :
    (showAllRecord docInlineOnly).isSome = true
      ∧ showGrokResponsesDoc docInlineOnly (.httpError 404)
          = ["📄 Document: a.pdf", "   Status: completed",
             "   ❌ No Grok response: 404"]
      ∧ showAllDoc 1 docEndpointOnly
          = ["1. Document: b.pdf", "   ID: docB0001", "   Status: completed",
             "   Uploaded: 2024-01-02T03:04:05Z", "   ❌ No processed data"] :=
  ⟨rfl, rfl, rfl⟩

/-- C2 amended: each script consults exactly one location for the record.
`quick_grok_access` reads only the detail endpoint — its per-document
output is invariant under any change to `propertyData`;
`show_all_grok_responses` reads only
`propertyData.rawExtractedData.fullGrokResponse` — its output is invariant
under the other inline location `propertyData.fullGrokResponse`, and it
performs no endpoint request at all (its rendering takes no endpoint
data); `display_document_list` filters by `propertyData.fullGrokResponse`
and is invariant under `rawExtractedData`.  No script checks both the
endpoint and an inline location for the same record. -/
theorem C2_single_locations (doc : Document) (i : Nat) :
    (∀ (pd : Option PropertyData) (fetch : GrokFetch),
        showGrokResponsesDoc { doc with propertyData := pd } fetch
          = showGrokResponsesDoc doc fetch)
    ∧ (∀ (pd : PropertyData) (g : Option GrokResponse),
        showAllDoc i { doc with propertyData := some { pd with fullGrokResponse := g } }
          = showAllDoc i { doc with propertyData := some pd })
    ∧ (∀ (pd : PropertyData) (rd : Option RawExtractedData),
        viewHasGrok { doc with propertyData := some { pd with rawExtractedData := rd } }
          = viewHasGrok { doc with propertyData := some pd }) :=
  ⟨fun _ _ => rfl, fun _ _ => rfl, fun _ _ => rfl⟩

/-- C3 counterexample: `show_all_grok_responses` and `test_grok_access`
never check `status`; for a document with `status = "pending"` whose
inline location holds a record, both render the record, and neither ever
prints a "not yet processed" notice. -/
theorem C3_counterexample :
    docPendingInline.status ≠ "completed"
      ∧ showAllDoc 1 docPendingInline
          = ["1. Document: p.pdf", "   ID: docP0001", "   Status: pending",
             "   Uploaded: 2024-01-02T03:04:05Z",
             "   ✅ FULL GROK RESPONSE AVAILABLE", "   Model: Unknown",
             "   Tokens: 0", "   Time: 0.0s"]
      ∧ "   ⏳ Document not yet processed" ∉ showAllDoc 1 docPendingInline
      ∧ "✅ FULL GROK RESPONSE FOUND!" ∈ testGrokDoc docPendingInline :=
  ⟨by decide, rfl, by decide, by decide⟩

/-- C3 amended: only `quick_grok_access` gates on status — for a document
with `status ≠ "completed"` it renders exactly the header plus the
"not yet processed" notice, independent of any fetch outcome.
`show_all_grok_responses` and `test_grok_access` ignore status and render
the inline record whenever it is present. -/
theorem C3_status_gate (doc : Document) (fetch : GrokFetch)
    (h : doc.status ≠ "completed") :
    showGrokResponsesDoc doc fetch
      = ["📄 Document: " ++ doc.originalName, "   Status: " ++ doc.status,
         "   ⏳ Document not yet processed"] := by
  simp [showGrokResponsesDoc, h]

/-- C3 witness: the gate at a concrete pending document, with a fetch
outcome that would have carried a record. -/
theorem C3_status_gate_witness :
    showGrokResponsesDoc docPendingInline (.ok grNone)
      = ["📄 Document: p.pdf", "   Status: pending",
         "   ⏳ Document not yet processed"] :=
  C3_status_gate docPendingInline (.ok grNone) (by decide)

/-- C4 counterexample: the non-numeric, non-quit token `"abc"` raises
`ValueError` in `int(choice)`, which the loop's
`except (ValueError, KeyboardInterrupt): break` turns into loop
termination — it does not re-prompt. -/
theorem C4_counterexample :
    loopStep "abc" 3 = .valueErrorExit
      ∧ loopContinues (loopStep "abc" 3) = false :=
  ⟨rfl, rfl⟩

/-- C4 amended: a quit token exits; a token that does not parse as an int
exits through the ValueError handler; a numeric token out of range
re-prompts (the only re-prompting case); an in-range numeric token selects
and the loop continues. -/
theorem C4_loop_exits (line : String) (numDocs : Nat) :
    (pyLower (pyStrip line) = "q" → loopStep line numDocs = .quitExit)
    ∧ (pyLower (pyStrip line) ≠ "q" → pyInt (pyStrip line) = none →
        loopStep line numDocs = .valueErrorExit)
    ∧ (∀ n : Int, pyLower (pyStrip line) ≠ "q" → pyInt (pyStrip line) = some n →
        ¬(1 ≤ n ∧ n ≤ (numDocs : Int)) → loopStep line numDocs = .reprompt)
    ∧ (∀ n : Int, pyLower (pyStrip line) ≠ "q" → pyInt (pyStrip line) = some n →
        (1 ≤ n ∧ n ≤ (numDocs : Int)) →
        loopStep line numDocs = .select n.toNat) := by
  refine ⟨?_, ?_, ?_, ?_⟩
  · intro h
    simp [loopStep, h]
  · intro h1 h2
    simp [loopStep, h1, h2]
  · intro n h1 h2 h3
    simp [loopStep, h1, h2, h3]
  · intro n h1 h2 h3
    simp [loopStep, h1, h2, h3]

/-- C4 witness: concrete instances of all four exits of the selection
loop. -/
theorem C4_loop_exits_witness :
    loopStep "q" 3 = .quitExit ∧ loopStep "abc" 3 = .valueErrorExit
      ∧ loopStep "7" 3 = .reprompt ∧ loopStep "2" 3 = .select 2 :=
  ⟨(C4_loop_exits "q" 3).1 rfl,
   (C4_loop_exits "abc" 3).2.1 (by decide) rfl,
   (C4_loop_exits "7" 3).2.2.1 7 (by decide) rfl (by decide),
   (C4_loop_exits "2" 3).2.2.2 2 (by decide) rfl (by decide)⟩

/-- C5 counterexample: for `response_time_ms = 500` (< 1000) the
`view_grok_responses.format_time` path indeed renders milliseconds, but
the `quick_grok_access` and `show_all_grok_responses` call sites render
`0.5s` — seconds to one decimal, not milliseconds — so the claimed rule
does not hold for every response record. -/
theorem C5_counterexample :
    format_time (some 500) = "500ms"
      ∧ quickTimeLine gr500 = "   Processing Time: 0.5s"
      ∧ showAllTimeLine gr500 = "   Time: 0.5s"
      ∧ quickTimeLine gr500 ≠ "   Processing Time: 500ms" :=
  ⟨rfl, rfl, rfl, by decide⟩

/-- C5 amended: only `format_time` in `view_grok_responses` follows the
rule, and only for a present, nonzero value (absent or zero renders
`N/A`); the `quick_grok_access` and `show_all_grok_responses` call sites
always render seconds to one decimal of the value defaulted to 0. -/
theorem C5_time_format (ms : Nat) (gr : GrokResponse) :
    (0 < ms → ms < 1000 → format_time (some ms) = toString ms ++ "ms")
    ∧ (1000 ≤ ms → format_time (some ms) = fmtSec1 ms ++ "s")
    ∧ format_time none = "N/A"
    ∧ format_time (some 0) = "N/A"
    ∧ quickTimeLine gr
        = "   Processing Time: " ++ fmtSec1 (gr.response_time_ms.getD 0) ++ "s"
    ∧ showAllTimeLine gr = "   Time: " ++ fmtSec1 (gr.response_time_ms.getD 0) ++ "s" := by
  refine ⟨?_, ?_, rfl, rfl, rfl, rfl⟩
  · intro h1 h2
    show (if ms = 0 then "N/A" else if ms < 1000 then toString ms ++ "ms"
      else fmtSec1 ms ++ "s") = toString ms ++ "ms"
    rw [if_neg (by omega), if_pos h2]
  · intro h
    show (if ms = 0 then "N/A" else if ms < 1000 then toString ms ++ "ms"
      else fmtSec1 ms ++ "s") = fmtSec1 ms ++ "s"
    rw [if_neg (by omega), if_neg (by omega)]

/-- C5 witness: the amended rule at concrete values on each side of the
1000 ms boundary. -/
theorem C5_time_format_witness :
    format_time (some 500) = toString 500 ++ "ms"
      ∧ format_time (some 2500) = fmtSec1 2500 ++ "s" :=
  ⟨(C5_time_format 500 grNone).1 (by decide) (by decide),
   (C5_time_format 2500 grNone).2.1 (by decide)⟩

/-- C6 counterexample: an `OSError` (an `Exception` subclass, e.g. a
failing `open` while saving) raised at the save-file site of
`view_grok_responses.main` is caught by no handler — the loop's handler
covers only `ValueError` and `KeyboardInterrupt` and `main` has no
outermost `try` — so it propagates as an uncaught crash, contradicting
the claim that every unexpected fault is caught at the outermost scope. -/
theorem C6_counterexample :
    isExceptionSubclass PyExc.osError = true
      ∧ viewCaught .saveFile .osError = false
      ∧ viewCaught .displayList .keyError = false :=
  ⟨rfl, rfl, rfl⟩

/-- C6 amended: `quick_grok_access`, `show_all_grok_responses` and
`test_grok_access` wrap their whole body in `except Exception`, so every
`Exception`-derived fault is caught (and the process exits 0).  In
`view_grok_responses`, only the two fetch helpers have such handlers;
inside the selection loop only `ValueError` and `KeyboardInterrupt` are
caught, and `display_document_list` runs under no handler at all — faults
there propagate out of the script uncaught. -/
theorem C6_handlers (e : PyExc) :
    (isExceptionSubclass e = true →
        quickCaught e = true ∧ showAllCaught e = true ∧ testCaught e = true
          ∧ viewCaught .fetchDocuments e = true ∧ viewCaught .fetchResponse e = true)
    ∧ viewCaught .displayList e = false
    ∧ (viewCaught .saveFile e = true ↔ e = .valueError ∨ e = .keyboardInterrupt)
    ∧ (viewCaught .displayResponse e = true ↔ e = .valueError ∨ e = .keyboardInterrupt)
    ∧ (viewCaught .promptInput e = true ↔ e = .valueError ∨ e = .keyboardInterrupt) := by
  cases e <;> decide

/-- C6 witness: the amended handler structure at a concrete fault — an
`OSError` is caught by the three wrapped scripts but escapes
`view_grok_responses`' save site. -/
theorem C6_handlers_witness :
    quickCaught .osError = true ∧ viewCaught .displayList .osError = false :=
  ⟨((C6_handlers .osError).1 (by decide)).1, (C6_handlers .osError).2.1⟩

/-- C8 counterexample: for the one-document list `[docEndpointOnly]`
(no inline record), `display_document_list` renders zero entries, not
one per document. -/
theorem C8_counterexample :
    ([docEndpointOnly] : List Document).length = 1
      ∧ viewListBlocks [docEndpointOnly] = [] :=
  ⟨rfl, rfl⟩

/-- C8 amended: `show_all_grok_responses` renders exactly one block per
document, in input order; `display_document_list` renders exactly one
entry per document whose `propertyData.fullGrokResponse` is present, in
input order, renumbered 1.. over the kept documents. -/
theorem C8_listing (docs : List Document) :
    (showAllBlocks docs).length = docs.length
    ∧ (∀ i : Nat, (showAllBlocks docs)[i]?
        = (docs[i]?).map fun d => showAllDoc (1 + i) d)
    ∧ (viewListBlocks docs).length = (docs.filter viewHasGrok).length
    ∧ (∀ i : Nat, (viewListBlocks docs)[i]?
        = ((docs.filter viewHasGrok)[i]?).map fun d => viewEntryLines (1 + i) d) := by
  refine ⟨?_, ?_, ?_, ?_⟩
  · simp [showAllBlocks, List.enumFrom_length]
  · intro i
    simp only [showAllBlocks, List.getElem?_map, List.getElem?_enumFrom, Option.map_map]
    rfl
  · simp [viewListBlocks, List.enumFrom_length]
  · intro i
    simp only [viewListBlocks, List.getElem?_map, List.getElem?_enumFrom, Option.map_map]
    rfl

/-- C10: every optional field of the AI Response Record may be absent and
each renderer still produces its full output, substituting the per-field
default (`Unknown`, `N/A`, `0`, empty content, or silently omitting the
classification block). -/
theorem C10_optional_defaults (gr : GrokResponse) (name : String) (doc : Document) :
    (gr.model = none → "   Model: Unknown" ∈ display_grok_response name gr)
    ∧ (gr.prompt_tokens = none →
        "   Prompt Tokens: N/A" ∈ display_grok_response name gr)
    ∧ (gr.completion_tokens = none →
        "   Completion Tokens: N/A" ∈ display_grok_response name gr)
    ∧ (gr.total_tokens = none →
        "   Total Tokens: N/A" ∈ display_grok_response name gr)
    ∧ (gr.response_time_ms = none →
        "   Processing Time: N/A" ∈ display_grok_response name gr)
    ∧ (gr.timestamp = none → "   Timestamp: N/A" ∈ display_grok_response name gr)
    ∧ (gr.full_response_content = none →
        "No raw content available" ∈ display_grok_response name gr)
    ∧ (gr.parsed_result = none →
        classificationLines "📋 DOCUMENT CLASSIFICATION:" "   " gr = [])
    ∧ (doc.status = "completed" → gr.model = none → gr.total_tokens = none →
        "   Model: Unknown" ∈ showGrokResponsesDoc doc (.ok gr)
          ∧ "   Tokens: 0" ∈ showGrokResponsesDoc doc (.ok gr)) := by
  refine ⟨?_, ?_, ?_, ?_, ?_, ?_, ?_, ?_, ?_⟩
  · intro h
    simp [display_grok_response, h]
  · intro h
    simp [display_grok_response, h, format_tokens]
  · intro h
    simp [display_grok_response, h, format_tokens]
  · intro h
    simp [display_grok_response, h, format_tokens]
  · intro h
    simp [display_grok_response, h, format_time]
  · intro h
    simp [display_grok_response, h]
  · intro h
    simp [display_grok_response, h, rawContentLines]
  · intro h
    simp [classificationLines, classificationOf, h]
  · intro hst hm ht
    constructor
    · simp [showGrokResponsesDoc, hst, hm]
    · simp [showGrokResponsesDoc, hst, ht, fmtComma, natDigits, natDigitsF,
        digitChar, groupRev]

/-- C10 witness: the all-absent record renders with every default in
place. -/
theorem C10_optional_defaults_witness :
    "   Model: Unknown" ∈ display_grok_response "a.pdf" grNone
      ∧ "No raw content available" ∈ display_grok_response "a.pdf" grNone
      ∧ "   Tokens: 0" ∈ showGrokResponsesDoc docEndpointOnly (.ok grNone) :=
  ⟨(C10_optional_defaults grNone "a.pdf" docEndpointOnly).1 rfl,
   (C10_optional_defaults grNone "a.pdf" docEndpointOnly).2.2.2.2.2.2.1 rfl,
   ((C10_optional_defaults grNone "a.pdf" docEndpointOnly).2.2.2.2.2.2.2.2
      rfl rfl rfl).2⟩

end ArchiStripe
